import Mathlib

/-!
Shallow embedding of the book-catalog backend (Express + Mongoose):
the auth middleware (middleware/authMiddleware.js), the auth controller
(controllers/authController.js), the book controller
(controllers/bookController.js) and the data models (models/User.js,
models/Book.js).  External collaborators (MongoDB queries, bcrypt, jwt)
are modelled explicitly; store and hash faults are injected as explicit
`Option String` parameters so that the try/catch structure of each
controller is reproduced faithfully.
-/

/-- JS whitespace as recognized by `trim()` and skipped by `parseInt`. -/
def isWs (c : Char) : Bool := c = ' ' || c = '\t' || c = '\n' || c = '\r'

/-- Model of JS `s.trim()`: strip leading and trailing whitespace. -/
def jsTrim (s : String) : String :=
  String.mk ((((s.toList.dropWhile isWs).reverse).dropWhile isWs).reverse)

/-- Model of JS `s.toLowerCase()` / Mongoose `lowercase: true` (ASCII). -/
def lowerStr (s : String) : String := String.mk (s.toList.map Char.toLower)

/-- JS truthiness for an optional string field of a JSON body:
`!x` is true when the field is `undefined` or the empty string. -/
def strFalsy : Option String → Bool
  | none => true
  | some s => s = ""

/-- JS truthiness for an optional numeric field of a JSON body:
`!x` is true when the field is `undefined` or `0`. -/
def numFalsy : Option Int → Bool
  | none => true
  | some n => n = 0

/-- Decoded JWT payload: `jwt.sign({ id: user._id, role: user.role }, ...)`. -/
structure Payload where
  id : Nat
  role : String
deriving DecidableEq

/-- Model of a token produced by `jwt.sign(payload, secret, { expiresIn: "1h" })`:
the signed payload, the signing secret and the issuance time (seconds). -/
structure Token where
  payload : Payload
  secret : String
  iat : Nat
deriving DecidableEq

/-- Model of `jwt.sign(payload, secret, { expiresIn: "1h" })`. -/
def jwtSign (p : Payload) (secret : String) (now : Nat) : Token :=
  { payload := p, secret := secret, iat := now }

/-- Model of `jwt.verify(token, secret)` for a token signed with
`expiresIn: "1h"`: verification succeeds iff the secret matches and the
current time is strictly before `iat + 3600` seconds (jsonwebtoken throws
`TokenExpiredError` as soon as the clock reaches `exp = iat + 3600`). -/
def jwtVerify (secret : String) (now : Nat) (t : Token) : Option Payload :=
  if t.secret = secret ∧ now < t.iat + 3600 then some t.payload else none

/-- Model of the JS `header.split(" ")` (split at every single space).
`"".split(" ") = [""]`, `"a  b".split(" ") = ["a", "", "b"]`. -/
def splitOnSpace : List Char → List (List Char)
  | [] => [[]]
  | c :: cs =>
    match splitOnSpace cs with
    | [] => [[c]]
    | w :: ws => if c = ' ' then [] :: w :: ws else (c :: w) :: ws

/-- Outcome of the auth middleware: the three 401 error bodies, or the
decoded payload attached to `req.user` before calling `next()`. -/
inductive AuthResult where
  | missingAuth
  | malformedAuth
  | invalidOrExpiredToken
  | success (payload : Payload)
deriving DecidableEq

/-- middleware/authMiddleware.js.  `verify` abstracts
`(token) => jwt.verify(token, process.env.JWT_SECRET)`, returning `none`
when `jwt.verify` throws.  Mirrors the JS line by line: `!authHeader`
(so an empty header is treated as missing), destructuring
`const [scheme, token] = authHeader.split(" ")` (segments after the
second are dropped), `scheme !== "Bearer" || !token`, then `jwt.verify`. -/
def authMiddleware (verify : String → Option Payload) (authHeader : Option String) :
    AuthResult :=
  match authHeader with
  | none => .missingAuth
  | some h =>
    if h = "" then .missingAuth
    else
      match splitOnSpace h.toList with
      | [] => .malformedAuth
      | scheme :: rest =>
        let token := rest.headD []
        if scheme = "Bearer".toList ∧ token ≠ [] then
          match verify (String.mk token) with
          | some payload => .success payload
          | none => .invalidOrExpiredToken
        else .malformedAuth

/-- Formalisation of the spec's words, for comparison with the code: the
header matches the exact two-token scheme `"Bearer <token>"`, i.e.
splitting at spaces yields exactly the scheme keyword `Bearer` and one
nonempty token segment. -/
def specIsTwoToken (h : String) : Bool :=
  match splitOnSpace h.toList with
  | [s, t] => s = "Bearer".toList && t ≠ []
  | _ => false

/-- models/User.js: a persisted user document.  The stored `email` is
post-normalization (the schema has `lowercase: true, trim: true`). -/
structure User where
  id : Nat
  username : String
  email : String
  password : String
  role : String
deriving DecidableEq

/-- The normalization the user schema applies to `email`
(`trim: true, lowercase: true`). -/
def normalizeEmail (s : String) : String := lowerStr (jsTrim s)

/-- Fault injection for the auth controller's external calls:
`User.findOne`, `bcrypt.hash`/`bcrypt.compare`, and `user.save()`.
`some f` makes the corresponding call throw `f`. -/
structure AuthFS where
  findFault : Option String
  hashFault : Option String
  saveFault : Option String
deriving DecidableEq

/-- No injected faults: every store and hash call succeeds. -/
def noAuthFault : AuthFS := ⟨none, none, none⟩

/-- Request body of POST /api/auth/register. -/
structure RegisterReq where
  username : Option String
  email : Option String
  password : Option String
deriving DecidableEq

/-- Request body of POST /api/auth/login. -/
structure LoginReq where
  email : Option String
  password : Option String
deriving DecidableEq

/-- Summary of a user returned by login (no password hash). -/
structure UserSummary where
  id : Nat
  username : String
  email : String
  role : String
deriving DecidableEq

/-- models/Book.js: a persisted book document. -/
structure Book where
  id : Nat
  title : String
  author : String
  year : Option Int
  createdAt : Nat
deriving DecidableEq

/-- JSON response bodies produced by the controllers. -/
inductive Body where
  | msg (message : String)
  | failMsg (message : String)
  | okMsg (message : String)
  | dataBook (b : Book)
  | listing (data : List Book) (page limit totalPages totalItems : Nat)
  | auth (token : Token) (user : UserSummary)
  | me (user : Payload)
deriving DecidableEq

/-- An HTTP response: status code plus JSON body. -/
structure Resp where
  status : Nat
  body : Body
deriving DecidableEq

/-- controllers/authController.js `register`.  There is no try/catch:
a throwing store or hash call escapes as `Except.error` (an unhandled
promise rejection in the JS).  `hash` abstracts `bcrypt.hash(pw, 10)`. -/
def register (fs : AuthFS) (hash : String → String) (db : List User)
    (req : RegisterReq) : Except String (Resp × List User) := do
  if strFalsy req.username || strFalsy req.email || strFalsy req.password then
    return (⟨400, .msg "All fields required"⟩, db)
  match fs.findFault with
  | some f => Except.error f
  | none => Except.ok ()
  let email := normalizeEmail (req.email.getD "")
  if (db.find? (fun u => u.email == email)).isSome then
    return (⟨400, .msg "User already exists"⟩, db)
  match fs.hashFault with
  | some f => Except.error f
  | none => Except.ok ()
  let hashed := hash (req.password.getD "")
  match fs.saveFault with
  | some f => Except.error f
  | none => Except.ok ()
  let user : User :=
    { id := db.length, username := jsTrim (req.username.getD ""),
      email := email, password := hashed, role := "user" }
  return (⟨201, .msg "User registered successfully"⟩, db ++ [user])

/-- controllers/authController.js `login`.  No try/catch either.  `cmp`
abstracts `bcrypt.compare(password, user.password)`; `now` is the clock
at which `jwt.sign` runs. -/
def login (fs : AuthFS) (cmp : String → String → Bool) (secret : String)
    (now : Nat) (db : List User) (req : LoginReq) : Except String Resp := do
  match fs.findFault with
  | some f => Except.error f
  | none => Except.ok ()
  match db.find? (fun u => u.email == normalizeEmail (req.email.getD "")) with
  | none => return ⟨400, .msg "Invalid credentials"⟩
  | some user =>
    match fs.hashFault with
    | some f => Except.error f
    | none => Except.ok ()
    if ! cmp (req.password.getD "") user.password then
      return ⟨400, .msg "Invalid credentials"⟩
    let token := jwtSign ⟨user.id, user.role⟩ secret now
    return ⟨200, .auth token ⟨user.id, user.username, user.email, user.role⟩⟩

/-- Model of `Math.ceil(a / b)` for naturals with `b ≥ 1` (the JS numbers
here are the nonnegative integers `totalBooks` and `limit`): ceiling
division, computed with natural arithmetic. -/
def jsCeilNat (a b : Nat) : Nat := (a + b - 1) / b

/-- ASCII decimal digit test. -/
def isDigitCh (c : Char) : Bool := '0' ≤ c && c ≤ '9'

/-- Value of a list of decimal digits. -/
def digitsToNat (l : List Char) : Nat :=
  l.foldl (fun a c => a * 10 + (c.toNat - '0'.toNat)) 0

/-- Longest leading run of decimal digits; `none` when there is none
(`parseInt` returns `NaN` in that case). -/
def parseDigits (l : List Char) : Option Nat :=
  match l.takeWhile isDigitCh with
  | [] => none
  | ds => some (digitsToNat ds)

/-- Model of JS `parseInt(s)` (radix 10): skip leading whitespace, read an
optional sign and then the longest digit prefix; `none` models `NaN`. -/
def jsParseIntChars (l : List Char) : Option Int :=
  match l.dropWhile isWs with
  | '-' :: rest => (parseDigits rest).map (fun n => -(n : Int))
  | '+' :: rest => (parseDigits rest).map (fun n => (n : Int))
  | rest => (parseDigits rest).map (fun n => (n : Int))

/-- `parseInt` applied to an optional query parameter (`none` = absent,
`parseInt(undefined)` is `NaN`). -/
def jsParseInt : Option String → Option Int
  | none => none
  | some s => jsParseIntChars s.toList

/-- JS `x || d` for a number `x` that may be `NaN` (`none`): `NaN` and `0`
are falsy and give the default. -/
def jsOr (x : Option Int) (d : Int) : Int :=
  match x with
  | none => d
  | some v => if v = 0 then d else v

/-- `const page = Math.max(parseInt(req.query.page) || 1, 1)`. -/
def coercePage (q : Option String) : Nat := (max (jsOr (jsParseInt q) 1) 1).toNat

/-- `const limit = Math.max(parseInt(req.query.limit) || 5, 1)`. -/
def coerceLimit (q : Option String) : Nat := (max (jsOr (jsParseInt q) 5) 1).toNat

/-- `const search = req.query.search?.trim() || ""`. -/
def effSearch : Option String → String
  | none => ""
  | some s => jsTrim s

/-- One character of a `$regex` pattern matched against one text character,
with option `"i"`: `.` matches anything, any other character matches
case-insensitively.  This models the fragment of MongoDB `$regex` (PCRE)
exercised here: patterns made of literal characters and the `.`
metacharacter. -/
def regexCharMatch (pc c : Char) : Bool := pc = '.' || pc.toLower = c.toLower

/-- The pattern matches a prefix of the text. -/
def regexAccepts : List Char → List Char → Bool
  | [], _ => true
  | _ :: _, [] => false
  | p :: ps, c :: cs => regexCharMatch p c && regexAccepts ps cs

/-- Unanchored regex search, as MongoDB `$regex` performs: the pattern
matches starting at some position of the text. -/
def regexFind (pat : List Char) : List Char → Bool
  | [] => regexAccepts pat []
  | c :: cs => regexAccepts pat (c :: cs) || regexFind pat cs

/-- A character without special meaning in a regular expression. -/
def regexLiteralChar (c : Char) : Bool :=
  !(c ∈ ['.', '^', '$', '*', '+', '?', '(', ')', '[', ']',
         '\x7b', '\x7d', '|', '\\'])

/-- Formalisation of the spec's filter semantics, for comparison with the
code: `needle` occurs in `hay` as a case-insensitive substring
(not anchored, not tokenized). -/
def specMatchCI (needle hay : String) : Prop :=
  (needle.toList.map Char.toLower) <:+: (hay.toList.map Char.toLower)

instance (needle hay : String) : Decidable (specMatchCI needle hay) :=
  List.decidableInfix _ _

/-- The filter `{ $or: [ { title: { $regex: search, $options: "i" } },
{ author: ... } ] }` built by `getAllBooks`, applied to one record;
an empty search means the empty filter (match everything). -/
def bookMatches (search : String) (b : Book) : Bool :=
  if search = "" then true
  else regexFind search.toList b.title.toList || regexFind search.toList b.author.toList

/-- Model of the store's `.sort({ createdAt: -1 })` (newest first):
insertion sort, descending by creation timestamp. -/
def insertDesc (b : Book) : List Book → List Book
  | [] => [b]
  | x :: xs => if x.createdAt ≤ b.createdAt then b :: x :: xs else x :: insertDesc b xs

/-- Sort a list of books descending by `createdAt`. -/
def sortDesc : List Book → List Book
  | [] => []
  | x :: xs => insertDesc x (sortDesc xs)

/-- Query string of GET /api/books. -/
structure ListQuery where
  page : Option String
  limit : Option String
  search : Option String
deriving DecidableEq

/-- Body of the `try` block of `getAllBooks`: coercions, filter, the
`Promise.all` pair (`Book.find(filter).sort(...).skip(skip).limit(limit)`
and `Book.countDocuments(filter)`, either of which may throw), and the
200 response. -/
def getAllBooksInner (findFault countFault : Option String) (db : List Book)
    (q : ListQuery) : Except String Resp := do
  let page := coercePage q.page
  let limit := coerceLimit q.limit
  let search := effSearch q.search
  let skip := (page - 1) * limit
  match findFault with
  | some f => Except.error f
  | none => Except.ok ()
  match countFault with
  | some f => Except.error f
  | none => Except.ok ()
  let matched := db.filter (bookMatches search)
  let data := ((sortDesc matched).drop skip).take limit
  return ⟨200, .listing data page limit (jsCeilNat matched.length limit) matched.length⟩

/-- controllers/bookController.js `getAllBooks`: the `try` block, with the
`catch` converting any store fault into the generic 500 response. -/
def getAllBooks (findFault countFault : Option String) (db : List Book)
    (q : ListQuery) : Resp :=
  match getAllBooksInner findFault countFault db q with
  | .ok r => r
  | .error _ => ⟨500, .failMsg "Failed to fetch books"⟩

/-- Request body of POST /api/books.  `extra` carries any further fields
of the JSON body; the controller destructures only title/author/year. -/
structure BookBody where
  title : Option String
  author : Option String
  year : Option Int
  extra : List (String × String)
deriving DecidableEq

/-- Body of the `try` block of `createBook`: the falsy-field validation
(`!title || !author || !year`), then `new Book(...).save()` which may
throw. -/
def createBookInner (saveFault : Option String) (db : List Book) (now : Nat)
    (body : BookBody) : Except String (Resp × List Book) := do
  if strFalsy body.title || strFalsy body.author || numFalsy body.year then
    return (⟨400, .msg "Title, author, and year are required"⟩, db)
  match saveFault with
  | some f => Except.error f
  | none => Except.ok ()
  let b : Book :=
    { id := db.length, title := jsTrim (body.title.getD ""),
      author := jsTrim (body.author.getD ""), year := body.year, createdAt := now }
  return (⟨201, .dataBook b⟩, db ++ [b])

/-- controllers/bookController.js `createBook`: `try` block plus the
`catch` that answers 400 "Invalid book data" on any save error. -/
def createBook (saveFault : Option String) (db : List Book) (now : Nat)
    (body : BookBody) : Resp × List Book :=
  match createBookInner saveFault db now body with
  | .ok r => r
  | .error _ => (⟨400, .failMsg "Invalid book data"⟩, db)

/-- Request body of PUT /api/books/:id (any subset of the fields). -/
structure UpdateBody where
  title : Option String
  author : Option String
  year : Option Int
deriving DecidableEq

/-- `findByIdAndUpdate(id, { title, author, year })`: fields that are
`undefined` are stripped by Mongoose and leave the stored value. -/
def applyUpdate (b : Book) (u : UpdateBody) : Book :=
  { b with
    title := (u.title.map jsTrim).getD b.title,
    author := (u.author.map jsTrim).getD b.author,
    year := match u.year with | some y => some y | none => b.year }

/-- Body of the `try` block of `updateBook`: `castId` models ObjectId
casting of `req.params.id` (`none` = malformed, the driver throws a
`CastError`); `runValidators: true` re-runs the schema validators, so an
updated `title`/`author` that is empty after trimming throws a
`ValidationError`; a missing record answers 404. -/
def updateBookInner (castId : String → Option Nat) (opFault : Option String)
    (db : List Book) (idStr : String) (u : UpdateBody) :
    Except String (Resp × List Book) := do
  match castId idStr with
  | none => Except.error "CastError"
  | some oid =>
    match opFault with
    | some f => Except.error f
    | none => Except.ok ()
    if u.title.map jsTrim = some "" || u.author.map jsTrim = some "" then
      Except.error "ValidationError"
    match db.find? (fun b => b.id == oid) with
    | none => return (⟨404, .msg "Book not found"⟩, db)
    | some b =>
      let b2 := applyUpdate b u
      return (⟨200, .dataBook b2⟩, db.map (fun x => if x.id = oid then b2 else x))

/-- controllers/bookController.js `updateBook`: `try` block plus the
`catch` answering 400 "Invalid ID or update data". -/
def updateBook (castId : String → Option Nat) (opFault : Option String)
    (db : List Book) (idStr : String) (u : UpdateBody) : Resp × List Book :=
  match updateBookInner castId opFault db idStr u with
  | .ok r => r
  | .error _ => (⟨400, .msg "Invalid ID or update data"⟩, db)

/-- Body of the `try` block of `deleteBook`: `findByIdAndDelete`. -/
def deleteBookInner (castId : String → Option Nat) (opFault : Option String)
    (db : List Book) (idStr : String) : Except String (Resp × List Book) := do
  match castId idStr with
  | none => Except.error "CastError"
  | some oid =>
    match opFault with
    | some f => Except.error f
    | none => Except.ok ()
    match db.find? (fun b => b.id == oid) with
    | none => return (⟨404, .msg "Book not found"⟩, db)
    | some _ =>
      return (⟨200, .okMsg "Book deleted successfully"⟩,
              db.filter (fun b => !(b.id == oid)))

/-- controllers/bookController.js `deleteBook`: `try` block plus the
`catch` answering 400 "Invalid ID". -/
def deleteBook (castId : String → Option Nat) (opFault : Option String)
    (db : List Book) (idStr : String) : Resp × List Book :=
  match deleteBookInner castId opFault db idStr with
  | .ok r => r
  | .error _ => (⟨400, .msg "Invalid ID"⟩, db)

/-- The five records inserted by seed.js, in insertion order (ids and
creation timestamps assigned by position). -/
def books5 : List Book :=
  [⟨0, "The Catcher in the Rye", "J.D. Salinger", some 1951, 0⟩,
   ⟨1, "To Kill a Mockingbird", "Harper Lee", some 1960, 1⟩,
   ⟨2, "1984", "George Orwell", some 1949, 2⟩,
   ⟨3, "The Great Gatsby", "F. Scott Fitzgerald", some 1925, 3⟩,
   ⟨4, "Pride and Prejudice", "Jane Austen", some 1813, 4⟩]

theorem splitOnSpace_ne_nil (l : List Char) : splitOnSpace l ≠ [] := by
  cases l with
  | nil => simp [splitOnSpace]
  | cons c cs =>
    rw [splitOnSpace]
    rcases h : splitOnSpace cs with _ | ⟨w, ws⟩
    · simp
    · by_cases hc : c = ' ' <;> simp [hc]

theorem splitOnSpace_no_space (l : List Char) (h : ∀ c ∈ l, c ≠ ' ') :
    splitOnSpace l = [l] := by
  induction l with
  | nil => rfl
  | cons c cs ih =>
    have hc : c ≠ ' ' := h c (by simp)
    rw [splitOnSpace, ih (fun x hx => h x (by simp [hx]))]
    simp [hc]

theorem splitOnSpace_append_space (l₁ l₂ : List Char) (h : ∀ c ∈ l₁, c ≠ ' ') :
    splitOnSpace (l₁ ++ ' ' :: l₂) = l₁ :: splitOnSpace l₂ := by
  induction l₁ with
  | nil =>
    rw [List.nil_append, splitOnSpace]
    rcases hs : splitOnSpace l₂ with _ | ⟨w, ws⟩
    · exact absurd hs (splitOnSpace_ne_nil l₂)
    · simp
  | cons c cs ih =>
    have hc : c ≠ ' ' := h c (by simp)
    rw [List.cons_append, splitOnSpace, ih (fun x hx => h x (by simp [hx]))]
    simp [hc]

theorem string_eq_empty_of_toList (t : String) (h : t.toList = []) : t = "" := by
  have h2 : String.mk t.toList = t := rfl
  rw [h] at h2
  exact h2.symm

theorem bearer_toList (t : String) :
    ("Bearer " ++ t).toList = "Bearer".toList ++ ' ' :: t.toList := by
  show ("Bearer " ++ t).data = "Bearer".data ++ ' ' :: t.data
  rw [String.data_append]
  have h : "Bearer ".data = "Bearer".data ++ [' '] := by decide
  rw [h, List.append_assoc]
  rfl

theorem toList_ne_nil_of_ne_empty (t : String) (ht : t ≠ "") : t.toList ≠ [] :=
  fun h0 => ht (string_eq_empty_of_toList t h0)

theorem authMiddleware_bearer (v : String → Option Payload) (t : String) (ht : t ≠ "")
    (hs : ∀ c ∈ t.toList, c ≠ ' ') :
    authMiddleware v (some ("Bearer " ++ t)) =
      (match v t with
       | some p => AuthResult.success p
       | none => AuthResult.invalidOrExpiredToken) := by
  have hne : ("Bearer " ++ t) ≠ "" := by
    intro h
    have h2 : ("Bearer " ++ t).toList = [] := by rw [h]; rfl
    rw [bearer_toList] at h2
    simp at h2
  have hsplit : splitOnSpace ("Bearer " ++ t).toList = ["Bearer".toList, t.toList] := by
    rw [bearer_toList, splitOnSpace_append_space _ _ (by decide),
        splitOnSpace_no_space _ hs]
  have htl : t.toList ≠ [] := toList_ne_nil_of_ne_empty t ht
  have hmk : String.mk t.toList = t := rfl
  simp only [authMiddleware, hne, if_neg, hsplit, List.headD_cons, hmk]
  rw [if_neg (by simp), if_pos ⟨trivial, htl⟩]

theorem bearer_extra_toList (t extra : String) :
    ("Bearer " ++ t ++ " " ++ extra).toList =
      "Bearer".toList ++ ' ' :: (t.toList ++ ' ' :: extra.toList) := by
  show (("Bearer " ++ t ++ " ") ++ extra).data = _
  rw [String.data_append, String.data_append, String.data_append]
  have h : "Bearer ".data = "Bearer".data ++ [' '] := by decide
  have h2 : " ".data = [' '] := by decide
  rw [h, h2]
  simp

theorem authMiddleware_bearer_extra (v : String → Option Payload) (t extra : String)
    (ht : t ≠ "") (hs : ∀ c ∈ t.toList, c ≠ ' ') :
    authMiddleware v (some ("Bearer " ++ t ++ " " ++ extra)) =
      authMiddleware v (some ("Bearer " ++ t)) := by
  have hsplit : splitOnSpace ("Bearer " ++ t ++ " " ++ extra).toList
      = "Bearer".toList :: t.toList :: splitOnSpace extra.toList := by
    rw [bearer_extra_toList, splitOnSpace_append_space _ _ (by decide),
        splitOnSpace_append_space _ _ hs]
  have hne : ("Bearer " ++ t ++ " " ++ extra) ≠ "" := by
    intro h
    have h2 : ("Bearer " ++ t ++ " " ++ extra).toList = [] := by rw [h]; rfl
    rw [bearer_extra_toList] at h2
    simp at h2
  have htl : t.toList ≠ [] := toList_ne_nil_of_ne_empty t ht
  have hmk : String.mk t.toList = t := rfl
  rw [authMiddleware_bearer v t ht hs]
  simp only [authMiddleware, hne, if_neg, hsplit, List.headD_cons, hmk]
  rw [if_neg (by simp), if_pos ⟨trivial, htl⟩]

theorem scheme_toList (s t : String) :
    (s ++ " " ++ t).toList = s.toList ++ ' ' :: t.toList := by
  show ((s ++ " ") ++ t).data = _
  rw [String.data_append, String.data_append]
  have h2 : " ".data = [' '] := by decide
  rw [h2]
  simp

theorem authMiddleware_wrong_scheme (v : String → Option Payload) (s t : String)
    (hs : s ≠ "Bearer") (hns : ∀ c ∈ s.toList, c ≠ ' ') :
    authMiddleware v (some (s ++ " " ++ t)) = .malformedAuth := by
  have hsplit : splitOnSpace (s ++ " " ++ t).toList = s.toList :: splitOnSpace t.toList := by
    rw [scheme_toList, splitOnSpace_append_space _ _ hns]
  have hne : (s ++ " " ++ t) ≠ "" := by
    intro h
    have h2 : (s ++ " " ++ t).toList = [] := by rw [h]; rfl
    rw [scheme_toList] at h2
    simp at h2
  have hsl : s.toList ≠ "Bearer".toList := by
    intro h
    apply hs
    have h3 : String.mk s.toList = String.mk "Bearer".toList := by rw [h]
    exact h3
  simp only [authMiddleware, hne, if_neg, hsplit]
  have hnc : ¬(s.toList = "Bearer".toList ∧ (splitOnSpace t.toList).headD [] ≠ []) :=
    fun hcond => hsl hcond.1
  rw [if_neg hnc]
  simp

theorem regexAccepts_literal (p : List Char) (hp : ∀ c ∈ p, regexLiteralChar c = true) :
    ∀ t : List Char,
      (regexAccepts p t = true ↔ (p.map Char.toLower) <+: (t.map Char.toLower)) := by
  induction p with
  | nil => intro t; simp [regexAccepts]
  | cons pc ps ih =>
    intro t
    have hpc : pc ≠ '.' := by
      have h1 := hp pc (by simp)
      simp [regexLiteralChar] at h1
      exact h1.1
    cases t with
    | nil => simp [regexAccepts]
    | cons c cs =>
      have ihc := ih (fun x hx => hp x (by simp [hx])) cs
      simp only [regexAccepts, regexCharMatch, List.map, List.cons_prefix_cons,
        Bool.and_eq_true, Bool.or_eq_true, decide_eq_true_eq]
      constructor
      · rintro ⟨h1 | h1, h2⟩
        · exact absurd h1 hpc
        · exact ⟨h1, ihc.mp h2⟩
      · rintro ⟨h1, h2⟩
        exact ⟨Or.inr h1, ihc.mpr h2⟩

theorem regexFind_literal (p : List Char) (hp : ∀ c ∈ p, regexLiteralChar c = true)
    (t : List Char) :
    (regexFind p t = true ↔ (p.map Char.toLower) <:+: (t.map Char.toLower)) := by
  induction t with
  | nil =>
    simp only [regexFind, regexAccepts_literal p hp, List.map_nil]
    simp [List.prefix_nil, List.infix_nil]
  | cons c cs ih =>
    simp only [regexFind, Bool.or_eq_true, regexAccepts_literal p hp, ih,
      List.map_cons, List.infix_cons_iff]

theorem coerceLimit_pos (q : Option String) : 1 ≤ coerceLimit q := by
  unfold coerceLimit
  have h := le_max_right (jsOr (jsParseInt q) 5) (1 : Int)
  omega

theorem ceil_ratCast_div (a b : Nat) (hb : 0 < b) :
    ⌈(a : ℚ) / (b : ℚ)⌉₊ = (a + b - 1) / b := by
  have hbq : (0:ℚ) < (b:ℚ) := by exact_mod_cast hb
  apply le_antisymm
  · rw [Nat.ceil_le, div_le_iff₀ hbq]
    have h1 : a ≤ (a + b - 1) / b * b := by
      rcases Nat.eq_zero_or_pos a with ha | ha
      · simp [ha]
      · have he : a + b - 1 = (a - 1) + b := by omega
        have hq : (a + b - 1) / b = (a - 1) / b + 1 := by
          rw [he, Nat.add_div_right _ hb]
        have hlt : a - 1 < (a - 1) / b * b + b := by
          have h2 := (Nat.div_lt_iff_lt_mul hb).mp (Nat.lt_succ_self ((a - 1) / b))
          rwa [Nat.succ_mul] at h2
        rw [hq, Nat.succ_mul]
        generalize (a - 1) / b * b = m at hlt ⊢
        omega
    exact_mod_cast h1
  · have hc := Nat.le_ceil ((a:ℚ) / (b:ℚ))
    rw [div_le_iff₀ hbq] at hc
    have hab : a ≤ ⌈(a:ℚ) / (b:ℚ)⌉₊ * b := by exact_mod_cast hc
    rw [Nat.div_le_iff_le_mul_add_pred hb]
    rw [Nat.mul_comm] at hab
    generalize b * ⌈(a:ℚ) / (b:ℚ)⌉₊ = m at hab ⊢
    omega

/-- C1 (counterexample): the Token Guard accepts a header with three
space-separated segments whose second segment verifies, although the
header does not match the exact two-token scheme "Bearer <token>";
the claimed equivalence between success and the exact two-token shape is
therefore false, and so is the claim that such a header fails with
MalformedAuth. -/
theorem c1_token_guard_counterexample :
    authMiddleware (fun s => if s = "tok" then some ⟨1, "user"⟩ else none)
      (some "Bearer tok extra") = .success ⟨1, "user"⟩ ∧
    specIsTwoToken "Bearer tok extra" = false :=
  ⟨by decide, by decide⟩

/-- C1 (amended): the Token Guard answers MissingAuth when the header is
absent (or the empty string), MalformedAuth when the first space-separated
segment differs from "Bearer" or when the second segment is missing or
empty; when the first segment is "Bearer" and the second segment is a
nonempty token, the guard succeeds iff the token verifies (failing with
InvalidOrExpiredToken otherwise), and any further space-separated segments
after the token are ignored. -/
theorem c1_token_guard_amended :
    ∀ (v : String → Option Payload) (t s extra : String),
      authMiddleware v none = .missingAuth ∧
      authMiddleware v (some "") = .missingAuth ∧
      authMiddleware v (some "Bearer") = .malformedAuth ∧
      authMiddleware v (some "Bearer ") = .malformedAuth ∧
      (t ≠ "" → (∀ c ∈ t.toList, c ≠ ' ') →
        (authMiddleware v (some ("Bearer " ++ t)) =
          (match v t with
           | some p => AuthResult.success p
           | none => AuthResult.invalidOrExpiredToken)) ∧
        authMiddleware v (some ("Bearer " ++ t ++ " " ++ extra)) =
          authMiddleware v (some ("Bearer " ++ t))) ∧
      (s ≠ "Bearer" → (∀ c ∈ s.toList, c ≠ ' ') →
        authMiddleware v (some (s ++ " " ++ t)) = .malformedAuth) := by
  intro v t s extra
  refine ⟨rfl, rfl, rfl, rfl, fun ht hsp => ⟨?_, ?_⟩, fun hs hns => ?_⟩
  · exact authMiddleware_bearer v t ht hsp
  · exact authMiddleware_bearer_extra v t extra ht hsp
  · exact authMiddleware_wrong_scheme v s t hs hns

/-- C1 (witness): the amended characterization applied to the concrete
token "tok" under a verifier accepting exactly "tok", and to the wrong
scheme keyword "Basic". -/
theorem c1_token_guard_amended_witness :
    authMiddleware (fun str => if str = "tok" then some ⟨1, "user"⟩ else none)
      (some ("Bearer " ++ "tok")) = .success ⟨1, "user"⟩ ∧
    authMiddleware (fun str => if str = "tok" then some ⟨1, "user"⟩ else none)
      (some ("Basic" ++ " " ++ "tok")) = .malformedAuth := by
  have h := c1_token_guard_amended
    (fun str => if str = "tok" then some ⟨1, "user"⟩ else none) "tok" "Basic" "x"
  refine ⟨?_, h.2.2.2.2.2 (by decide) (by decide)⟩
  have h5 := (h.2.2.2.2.1 (by decide) (by decide)).1
  rw [h5]
  decide

/-- C3 (confirmed): a login whose email matches no user and a login whose
email matches a user but whose password fails the hash comparison yield
the identical InvalidCredentials response (same 400 status, same body),
so the response does not reveal whether the email exists. -/
theorem c3_invalid_credentials_identical :
    ∀ (cmp : String → String → Bool) (secret : String) (now : Nat)
      (db : List User) (r1 r2 : LoginReq) (u : User),
      db.find? (fun x => x.email == normalizeEmail (r1.email.getD "")) = none →
      db.find? (fun x => x.email == normalizeEmail (r2.email.getD "")) = some u →
      cmp (r2.password.getD "") u.password = false →
      login noAuthFault cmp secret now db r1 = .ok ⟨400, .msg "Invalid credentials"⟩ ∧
      login noAuthFault cmp secret now db r2 = login noAuthFault cmp secret now db r1 := by
  intro cmp secret now db r1 r2 u h1 h2 hcmp
  constructor
  · simp [login, noAuthFault, h1, pure, Except.pure, bind, Except.bind]
  · simp [login, noAuthFault, h1, h2, hcmp, pure, Except.pure, bind, Except.bind]

/-- C3 (witness): concrete one-user store; a nonexistent email and a wrong
password produce the same response. -/
theorem c3_invalid_credentials_witness :
    login noAuthFault (fun p h => p == "pw" && h == "hh") "sec" 0
      [⟨0, "u", "e@x", "hh", "user"⟩] ⟨some "z@z", some "pw"⟩
      = .ok ⟨400, .msg "Invalid credentials"⟩ ∧
    login noAuthFault (fun p h => p == "pw" && h == "hh") "sec" 0
      [⟨0, "u", "e@x", "hh", "user"⟩] ⟨some "e@x", some "wrong"⟩
      = login noAuthFault (fun p h => p == "pw" && h == "hh") "sec" 0
          [⟨0, "u", "e@x", "hh", "user"⟩] ⟨some "z@z", some "pw"⟩ :=
  c3_invalid_credentials_identical (fun p h => p == "pw" && h == "hh") "sec" 0
    [⟨0, "u", "e@x", "hh", "user"⟩] ⟨some "z@z", some "pw"⟩ ⟨some "e@x", some "wrong"⟩
    ⟨0, "u", "e@x", "hh", "user"⟩ (by decide) (by decide) (by decide)

/-- C4 (confirmed): when a user whose stored (normalized) email equals the
normalization of the requested email already exists, register answers the
DuplicateError response (400, "User already exists") and returns the store
unchanged: no record is created and the existing record is unmodified. -/
theorem c4_duplicate_register_unchanged :
    ∀ (hash : String → String) (db : List User) (req : RegisterReq) (u : User),
      strFalsy req.username = false → strFalsy req.email = false →
      strFalsy req.password = false →
      u ∈ db → u.email = normalizeEmail (req.email.getD "") →
      register noAuthFault hash db req = .ok (⟨400, .msg "User already exists"⟩, db) := by
  intro hash db req u hu he hp hmem hemail
  have hfind : (db.find? (fun x => x.email == normalizeEmail (req.email.getD ""))).isSome := by
    rw [List.find?_isSome]
    exact ⟨u, hmem, by simp [hemail]⟩
  simp [register, noAuthFault, hu, he, hp, hfind, pure, Except.pure, bind, Except.bind]

/-- C4 (witness): registering "e@x" again over a store already holding a
user with normalized email "e@x" yields DuplicateError and the unchanged
store. -/
theorem c4_duplicate_register_witness :
    register noAuthFault (fun s => s) [⟨0, "u", "e@x", "hh", "user"⟩]
      ⟨some "u2", some "E@x ", some "pw"⟩
      = .ok (⟨400, .msg "User already exists"⟩, [⟨0, "u", "e@x", "hh", "user"⟩]) :=
  c4_duplicate_register_unchanged (fun s => s) [⟨0, "u", "e@x", "hh", "user"⟩]
    ⟨some "u2", some "E@x ", some "pw"⟩ ⟨0, "u", "e@x", "hh", "user"⟩
    (by decide) (by decide) (by decide) (by decide) (by decide)

/-- C5 (counterexample): the search string is passed to the store as an
unescaped regular expression, so the pattern "a.c" (whose dot is a regex
metacharacter) matches the record titled "abc" and the listing returns it,
although "abc" does not contain "a.c" as a case-insensitive substring;
the claim fails for search strings containing regex metacharacters. -/
theorem c5_search_counterexample :
    getAllBooks none none [⟨0, "abc", "x", some 1, 0⟩] ⟨none, none, some "a.c"⟩
      = ⟨200, .listing [⟨0, "abc", "x", some 1, 0⟩] 1 5 1 1⟩ ∧
    ¬ specMatchCI "a.c" "abc" ∧ ¬ specMatchCI "a.c" "x" :=
  ⟨by decide, by decide, by decide⟩

/-- C5 (amended): for every non-empty search string all of whose
characters are regex-literal (no regular-expression metacharacters), the
listing filter matches exactly the records whose title or author contains
the search string as a case-insensitive substring; search strings with
metacharacters are instead interpreted as regular expressions. -/
theorem c5_search_literal_amended :
    ∀ (s : String) (b : Book) (db : List Book),
      s ≠ "" → (∀ c ∈ s.toList, regexLiteralChar c = true) →
      (bookMatches s b = true ↔ (specMatchCI s b.title ∨ specMatchCI s b.author)) ∧
      db.filter (bookMatches s) =
        db.filter (fun x => decide (specMatchCI s x.title ∨ specMatchCI s x.author)) := by
  intro s b db hs hlit
  have hone : ∀ x : Book,
      bookMatches s x = true ↔ (specMatchCI s x.title ∨ specMatchCI s x.author) := by
    intro x
    unfold bookMatches specMatchCI
    rw [if_neg hs]
    simp only [Bool.or_eq_true, regexFind_literal s.toList hlit]
  refine ⟨hone b, ?_⟩
  apply List.filter_congr
  intro x _
  rcases Classical.em (specMatchCI s x.title ∨ specMatchCI s x.author) with h | h
  · simp [h, (hone x).mpr h]
  · have hb : bookMatches s x ≠ true := fun hc => h ((hone x).mp hc)
    simp [h]
    exact Bool.eq_false_iff.mpr hb

/-- C5 (witness): the amended filter semantics at the seeded store with the
literal search string "gatsby": exactly the Gatsby record matches. -/
theorem c5_search_literal_witness :
    books5.filter (bookMatches "gatsby") =
      books5.filter
        (fun x => decide (specMatchCI "gatsby" x.title ∨ specMatchCI "gatsby" x.author)) ∧
    books5.filter (bookMatches "gatsby") =
      [⟨3, "The Great Gatsby", "F. Scott Fitzgerald", some 1925, 3⟩] := by
  have h := (c5_search_literal_amended "gatsby"
    ⟨3, "The Great Gatsby", "F. Scott Fitzgerald", some 1925, 3⟩ books5
    (by decide) (by decide)).2
  exact ⟨h, by decide⟩

/-- C6 (counterexample): a non-numeric limit ("abc") and a zero limit
("0") are coerced to 5, not to 1 as the claim states (the code computes
Math.max(parseInt(limit) || 5, 1), so the || default 5 applies to NaN and
0 before the floor at 1). -/
theorem c6_coercion_counterexample :
    coerceLimit (some "abc") = 5 ∧ coerceLimit (some "0") = 5 ∧
    ¬ coerceLimit (some "abc") = 1 ∧ ¬ coerceLimit (some "0") = 1 := by
  decide

/-- C6 (amended): page and limit are coerced to integers and floored at 1;
for page, non-positive or non-numeric input becomes 1 and absence defaults
to 1, as claimed; for limit, non-numeric input, absence and 0 become the
default 5, and only negative input is floored to 1; the listing depends on
the raw parameters only through these coerced values. -/
theorem c6_coercion_amended :
    ∀ (p l p2 l2 s ff cf : Option String) (db : List Book) (v : Int),
      1 ≤ coercePage p ∧ 1 ≤ coerceLimit l ∧
      coercePage none = 1 ∧ coerceLimit none = 5 ∧
      (jsParseInt p = none → coercePage p = 1) ∧
      (jsParseInt p = some v → v ≤ 0 → coercePage p = 1) ∧
      (jsParseInt p = some v → 1 ≤ v → coercePage p = v.toNat) ∧
      (jsParseInt l = none → coerceLimit l = 5) ∧
      (jsParseInt l = some 0 → coerceLimit l = 5) ∧
      (jsParseInt l = some v → v < 0 → coerceLimit l = 1) ∧
      (jsParseInt l = some v → 1 ≤ v → coerceLimit l = v.toNat) ∧
      (coercePage p = coercePage p2 → coerceLimit l = coerceLimit l2 →
        getAllBooks ff cf db ⟨p, l, s⟩ = getAllBooks ff cf db ⟨p2, l2, s⟩) := by
  intro p l p2 l2 s ff cf db v
  refine ⟨?_, coerceLimit_pos l, by decide, by decide, ?_, ?_, ?_, ?_, ?_, ?_, ?_, ?_⟩
  · unfold coercePage
    have h := le_max_right (jsOr (jsParseInt p) 1) (1 : Int)
    omega
  · intro h; simp [coercePage, h, jsOr]
  · intro h hv
    by_cases h0 : v = 0
    · simp [coercePage, h, jsOr, h0]
    · have hm : max v 1 = 1 := max_eq_right (by omega)
      simp [coercePage, h, jsOr, h0, hm]
  · intro h hv
    have h0 : ¬ v = 0 := by omega
    have hm : max v 1 = v := max_eq_left hv
    simp [coercePage, h, jsOr, h0, hm]
  · intro h; simp [coerceLimit, h, jsOr]
  · intro h; simp [coerceLimit, h, jsOr]
  · intro h hv
    have h0 : ¬ v = 0 := by omega
    have hm : max v 1 = 1 := max_eq_right (by omega)
    simp [coerceLimit, h, jsOr, h0, hm]
  · intro h hv
    have h0 : ¬ v = 0 := by omega
    have hm : max v 1 = v := max_eq_left hv
    simp [coerceLimit, h, jsOr, h0, hm]
  · intro hp hl
    unfold getAllBooks getAllBooksInner
    rw [show coercePage (⟨p, l, s⟩ : ListQuery).page = coercePage p2 from hp,
        show coerceLimit (⟨p, l, s⟩ : ListQuery).limit = coerceLimit l2 from hl]

/-- C6 (witness): the amended coercions applied at page "-3" (a negative
numeric page becomes 1) and limit "7" (a positive numeric limit is kept). -/
theorem c6_coercion_witness :
    coercePage (some "-3") = 1 ∧ coerceLimit (some "7") = 7 := by
  have h := c6_coercion_amended (some "-3") (some "7") none none none none none [] (-3)
  have h2 := c6_coercion_amended (some "-3") (some "7") none none none none none [] 7
  exact ⟨h.2.2.2.2.2.1 (by decide) (by decide), h2.2.2.2.2.2.2.2.2.2.2.1 (by decide) (by decide)⟩

/-- C7 (confirmed): every fault-free listing response reports
totalItems equal to the number of records matching the filter ignoring
pagination, and totalPages equal to the ceiling of totalItems divided by
the coerced limit; in particular the seeded five-record store with
limit=2 reports totalPages = 3. -/
theorem c7_total_pages_ceiling :
    (∀ (db : List Book) (q : ListQuery), ∃ data,
      getAllBooks none none db q =
        ⟨200, .listing data (coercePage q.page) (coerceLimit q.limit)
          ⌈((db.filter (bookMatches (effSearch q.search))).length : ℚ)
              / (coerceLimit q.limit : ℚ)⌉₊
          (db.filter (bookMatches (effSearch q.search))).length⟩) ∧
    (∃ data, getAllBooks none none books5 ⟨none, some "2", none⟩
      = ⟨200, .listing data 1 2 3 5⟩) := by
  constructor
  · intro db q
    refine ⟨((sortDesc (db.filter (bookMatches (effSearch q.search)))).drop
      ((coercePage q.page - 1) * coerceLimit q.limit)).take (coerceLimit q.limit), ?_⟩
    rw [ceil_ratCast_div _ _ (coerceLimit_pos q.limit)]
    simp [getAllBooks, getAllBooksInner, bind, Except.bind, pure, Except.pure, jsCeilNat]
  · exact ⟨[⟨4, "Pride and Prejudice", "Jane Austen", some 1813, 4⟩,
            ⟨3, "The Great Gatsby", "F. Scott Fitzgerald", some 1925, 3⟩], by decide⟩

/-- C8 (confirmed): a token issued by a successful login at time T (signed
with the process secret, expiring one hour after issuance) is accepted by
the Token Guard at any time strictly before T + 3600 seconds and rejected
with InvalidOrExpiredToken at any time after T + 3600 seconds. -/
theorem c8_token_expiry :
    ∀ (cmp : String → String → Bool) (secret : String) (T : Nat) (db : List User)
      (req : LoginReq) (tok : Token) (us : UserSummary),
      login noAuthFault cmp secret T db req = .ok ⟨200, .auth tok us⟩ →
      ∀ (env : String → Option Token) (s : String),
        env s = some tok → s ≠ "" → (∀ c ∈ s.toList, c ≠ ' ') →
        ∀ now : Nat,
          (now < T + 3600 →
            authMiddleware (fun str => (env str).bind (jwtVerify secret now))
              (some ("Bearer " ++ s)) = .success tok.payload) ∧
          (T + 3600 < now →
            authMiddleware (fun str => (env str).bind (jwtVerify secret now))
              (some ("Bearer " ++ s)) = .invalidOrExpiredToken) := by
  intro cmp secret T db req tok us hlogin env s henv hs hsp now
  have hfacts : tok.secret = secret ∧ tok.iat = T := by
    simp only [login, noAuthFault, bind, Except.bind, pure, Except.pure] at hlogin
    rcases hfind : db.find? (fun u => u.email == normalizeEmail (req.email.getD ""))
      with _ | u
    · rw [hfind] at hlogin; simp at hlogin
    · rw [hfind] at hlogin
      rcases hcmp : cmp (req.password.getD "") u.password with _ | _
      · simp [hcmp] at hlogin
      · simp [hcmp, jwtSign] at hlogin
        rw [← hlogin.1]
        exact ⟨rfl, rfl⟩
  constructor
  · intro hlt
    rw [authMiddleware_bearer _ s hs hsp]
    have hcond : tok.secret = secret ∧ now < tok.iat + 3600 := by
      refine ⟨hfacts.1, ?_⟩; rw [hfacts.2]; omega
    simp [henv, jwtVerify, hcond, Option.bind]
  · intro hgt
    rw [authMiddleware_bearer _ s hs hsp]
    have hcond : ¬ (tok.secret = secret ∧ now < tok.iat + 3600) := by
      rintro ⟨-, h2⟩; rw [hfacts.2] at h2; omega
    simp [henv, jwtVerify, hcond, Option.bind]

/-- C8 (witness): a token issued at T = 1000 s is accepted at
T + 59 min (now = 4540) and rejected at T + 61 min (now = 4660). -/
theorem c8_token_expiry_witness :
    authMiddleware
      (fun str =>
        ((fun x => if x = "tok" then some (⟨⟨0, "user"⟩, "sec", 1000⟩ : Token) else none)
            str).bind (jwtVerify "sec" 4540))
      (some ("Bearer " ++ "tok")) = .success ⟨0, "user"⟩ ∧
    authMiddleware
      (fun str =>
        ((fun x => if x = "tok" then some (⟨⟨0, "user"⟩, "sec", 1000⟩ : Token) else none)
            str).bind (jwtVerify "sec" 4660))
      (some ("Bearer " ++ "tok")) = .invalidOrExpiredToken := by
  have h1 := c8_token_expiry (fun p h => p == "pw" && h == "hh") "sec" 1000
    [⟨0, "u", "e@x", "hh", "user"⟩] ⟨some "e@x", some "pw"⟩ ⟨⟨0, "user"⟩, "sec", 1000⟩
    ⟨0, "u", "e@x", "user"⟩ rfl
    (fun x => if x = "tok" then some ⟨⟨0, "user"⟩, "sec", 1000⟩ else none) "tok"
    rfl (by decide) (by decide)
  exact ⟨(h1 4540).1 (by omega), (h1 4660).2 (by omega)⟩

/-- C9 (confirmed): a create-book request fails with the ValidationError
response (400, "Title, author, and year are required") iff title, author
or year is missing or falsy (year = 0 counts as missing), regardless of
how the store behaves; on such a failure the store is unchanged; in
particular omitting year fails although the schema marks year optional. -/
theorem c9_create_validation :
    ∀ (sf : Option String) (db : List Book) (now : Nat) (body : BookBody),
      ((createBook sf db now body).1 = ⟨400, .msg "Title, author, and year are required"⟩
        ↔ (strFalsy body.title || strFalsy body.author || numFalsy body.year) = true) ∧
      ((strFalsy body.title || strFalsy body.author || numFalsy body.year) = true →
        createBook sf db now body
          = (⟨400, .msg "Title, author, and year are required"⟩, db)) ∧
      (body.year = none →
        createBook sf db now body
          = (⟨400, .msg "Title, author, and year are required"⟩, db)) := by
  intro sf db now body
  by_cases hcond : (strFalsy body.title || strFalsy body.author || numFalsy body.year) = true
  · have hcb : createBook sf db now body
        = (⟨400, .msg "Title, author, and year are required"⟩, db) := by
      simp [createBook, createBookInner, hcond, pure, Except.pure, bind, Except.bind]
    exact ⟨by simp [hcb, hcond], fun _ => hcb, fun _ => hcb⟩
  · have hy : body.year ≠ none := by
      intro h0
      exact hcond (by simp [numFalsy, h0])
    refine ⟨⟨fun hresp => ?_, fun h => absurd h hcond⟩,
            fun h => absurd h hcond, fun h => absurd h hy⟩
    exfalso
    rcases sf with _ | f
    · simp [createBook, createBookInner, hcond, pure, Except.pure, bind, Except.bind] at hresp
    · simp [createBook, createBookInner, hcond, pure, Except.pure, bind, Except.bind] at hresp

/-- C9 (witness): creating with year omitted, and with year = 0, both fail
with the ValidationError response and leave the (empty) store unchanged. -/
theorem c9_create_validation_witness :
    createBook none [] 7 ⟨some "T", some "A", none, []⟩
      = (⟨400, .msg "Title, author, and year are required"⟩, []) ∧
    createBook none [] 7 ⟨some "T", some "A", some 0, []⟩
      = (⟨400, .msg "Title, author, and year are required"⟩, []) :=
  ⟨(c9_create_validation none [] 7 ⟨some "T", some "A", none, []⟩).2.2 rfl,
   (c9_create_validation none [] 7 ⟨some "T", some "A", some 0, []⟩).2.1 (by decide)⟩

/-- C10 (confirmed): two create-book requests whose bodies agree on title,
author and year produce identical results (same persisted record, same
response) whatever their other fields are: the controller destructures
only these three fields, so other body fields never influence the created
record. -/
theorem c10_extra_fields_ignored :
    ∀ (sf : Option String) (db : List Book) (now : Nat) (b1 b2 : BookBody),
      b1.title = b2.title → b1.author = b2.author → b1.year = b2.year →
      createBook sf db now b1 = createBook sf db now b2 := by
  rintro sf db now ⟨t1, a1, y1, e1⟩ ⟨t2, a2, y2, e2⟩ h1 h2 h3
  simp only at h1 h2 h3
  subst h1; subst h2; subst h3
  rfl

/-- C10 (witness): a body with an extra "publisher" field creates the same
record and response as the bare body. -/
theorem c10_extra_fields_ignored_witness :
    createBook none [] 7 ⟨some "t", some "a", some 2008, [("publisher", "X")]⟩
      = createBook none [] 7 ⟨some "t", some "a", some 2008, []⟩ :=
  c10_extra_fields_ignored none [] 7 _ _ rfl rfl rfl

/-- C2 (counterexample): register has no try/catch, so a store fault in
User.findOne escapes the handler as an unhandled rejection instead of
being converted to a JSON error body: the claim that every operation
catches all errors at the service boundary is false for register (and
login). -/
theorem c2_boundary_counterexample :
    register ⟨some "connection lost", none, none⟩ (fun s => s) []
      ⟨some "alice", some "alice@example.com", some "pw"⟩
      = .error "connection lost" := rfl

/-- C2 (amended): the four book operations catch every internal fault and
always answer a JSON body with an HTTP-equivalent status (200/500 for
list; 201/400 for create; 200/404/400 for update and delete); register
and login convert only their validation, duplicate and credential
failures to JSON responses, and propagate any store or hash fault
unhandled (an escaping error always originates from such a fault). -/
theorem c2_boundary_amended :
    (∀ (ff cf : Option String) (db : List Book) (q : ListQuery),
      (getAllBooks ff cf db q).status = 200 ∨
        getAllBooks ff cf db q = ⟨500, .failMsg "Failed to fetch books"⟩) ∧
    (∀ (sf : Option String) (db : List Book) (now : Nat) (body : BookBody),
      (createBook sf db now body).1.status = 201 ∨
        (createBook sf db now body).1.status = 400) ∧
    (∀ (ci : String → Option Nat) (opf : Option String) (db : List Book)
        (idStr : String) (u : UpdateBody),
      (updateBook ci opf db idStr u).1.status = 200 ∨
        (updateBook ci opf db idStr u).1.status = 404 ∨
        (updateBook ci opf db idStr u).1.status = 400) ∧
    (∀ (ci : String → Option Nat) (opf : Option String) (db : List Book)
        (idStr : String),
      (deleteBook ci opf db idStr).1.status = 200 ∨
        (deleteBook ci opf db idStr).1.status = 404 ∨
        (deleteBook ci opf db idStr).1.status = 400) ∧
    (∀ (fs : AuthFS) (hash : String → String) (db : List User) (req : RegisterReq)
        (f : String),
      register fs hash db req = .error f →
        fs.findFault = some f ∨ fs.hashFault = some f ∨ fs.saveFault = some f) ∧
    (∀ (fs : AuthFS) (cmp : String → String → Bool) (secret : String) (now : Nat)
        (db : List User) (req : LoginReq) (f : String),
      login fs cmp secret now db req = .error f →
        fs.findFault = some f ∨ fs.hashFault = some f) := by
  refine ⟨?_, ?_, ?_, ?_, ?_, ?_⟩
  · intro ff cf db q
    rcases ff with _ | f1 <;> rcases cf with _ | f2 <;>
      simp [getAllBooks, getAllBooksInner, bind, Except.bind, pure, Except.pure]
  · intro sf db now body
    by_cases hcond : (strFalsy body.title || strFalsy body.author || numFalsy body.year) = true <;>
      rcases sf with _ | f1 <;>
      simp [createBook, createBookInner, hcond, bind, Except.bind, pure, Except.pure]
  · intro ci opf db idStr u
    rcases hci : ci idStr with _ | oid
    · simp [updateBook, updateBookInner, hci]
    · rcases opf with _ | f1
      · by_cases hval : ((∃ a, u.title = some a ∧ jsTrim a = "") ∨
            ∃ a, u.author = some a ∧ jsTrim a = "")
        · simp [updateBook, updateBookInner, hci, hval, bind, Except.bind, pure, Except.pure]
        · rcases hfind : db.find? (fun b => b.id == oid) with _ | b <;>
            simp [updateBook, updateBookInner, hci, hval, hfind, bind, Except.bind,
              pure, Except.pure]
      · simp [updateBook, updateBookInner, hci, bind, Except.bind, pure, Except.pure]
  · intro ci opf db idStr
    rcases hci : ci idStr with _ | oid
    · simp [deleteBook, deleteBookInner, hci]
    · rcases opf with _ | f1
      · rcases hfind : db.find? (fun b => b.id == oid) with _ | b <;>
          simp [deleteBook, deleteBookInner, hci, hfind, bind, Except.bind,
            pure, Except.pure]
      · simp [deleteBook, deleteBookInner, hci, bind, Except.bind, pure, Except.pure]
  · rintro ⟨ff, hf, sf⟩ hash db req f h
    by_cases hval : (strFalsy req.username || strFalsy req.email || strFalsy req.password) = true
    · simp [register, hval, bind, Except.bind, pure, Except.pure] at h
    · rcases ff with _ | f1
      · by_cases hfind : (db.find?
            (fun u => u.email == normalizeEmail (req.email.getD ""))).isSome = true
        · simp [register, hval, hfind, bind, Except.bind, pure, Except.pure] at h
        · rcases hf with _ | f2
          · rcases sf with _ | f3
            · simp [register, hval, hfind, bind, Except.bind, pure, Except.pure] at h
            · simp only [register, hval, hfind, bind, Except.bind, pure, Except.pure,
                Bool.false_eq_true, if_false] at h
              simp at h
              simp [h]
          · simp only [register, hval, hfind, bind, Except.bind, pure, Except.pure,
              Bool.false_eq_true, if_false] at h
            simp at h
            simp [h]
      · simp only [register, hval, bind, Except.bind, pure, Except.pure,
          Bool.false_eq_true, if_false] at h
        simp at h
        simp [h]
  · rintro ⟨ff, hf, sf⟩ cmp secret now db req f h
    rcases ff with _ | f1
    · rcases hfind : db.find? (fun u => u.email == normalizeEmail (req.email.getD ""))
        with _ | u
      · simp [login, hfind, bind, Except.bind, pure, Except.pure] at h
      · rcases hf with _ | f2
        · rcases hcmp : cmp (req.password.getD "") u.password with _ | _ <;>
            simp [login, hfind, hcmp, bind, Except.bind, pure, Except.pure] at h
        · simp only [login, hfind, bind, Except.bind, pure, Except.pure] at h
          simp at h
          simp [h]
    · simp only [login, bind, Except.bind, pure, Except.pure] at h
      simp at h
      simp [h]

/-- C2 (witness): a find fault in the listing is caught and converted to
the 500 response, and the amended fault-origin property applied to a
register call with an injected find fault "boom". -/
theorem c2_boundary_amended_witness :
    ((getAllBooks (some "down") none [] ⟨none, none, none⟩).status = 200 ∨
      getAllBooks (some "down") none [] ⟨none, none, none⟩
        = ⟨500, .failMsg "Failed to fetch books"⟩) ∧
    ((⟨some "boom", none, none⟩ : AuthFS).findFault = some "boom" ∨
      (⟨some "boom", none, none⟩ : AuthFS).hashFault = some "boom" ∨
      (⟨some "boom", none, none⟩ : AuthFS).saveFault = some "boom") :=
  ⟨c2_boundary_amended.1 (some "down") none [] ⟨none, none, none⟩,
   c2_boundary_amended.2.2.2.2.1 ⟨some "boom", none, none⟩ (fun s => s) []
     ⟨some "a", some "a@b", some "p"⟩ "boom" rfl⟩
